import Mathlib

set_option maxRecDepth 100000

/-!
Verification development for the `defenv` Go package (src/defenv.go).

The package is a flat set of accessors over the process environment table.
We embed the environment as a key-to-optional-value map and each accessor as
a pure Lean function translated from the Go source.  The parsers invoked by
the accessors (`strconv.ParseBool`, `strconv.ParseUint`, `strconv.ParseInt`,
`strconv.ParseFloat`, `time.ParseDuration`) live in the Go standard library,
outside this repository; they are embedded here following the standard
library's implementation, whose observable behavior the repository's own
test file pins down (error message strings included).

Machine integers are modelled as `Nat`/`Int` with the explicit range checks
the Go parsers perform; `int64` overflow tests of the form `x < 0` after an
addition of non-negative quantities are rendered as the equivalent
`maxInt64 < x` bound checks.
-/

/-- Decidable equality for `Except`, used to evaluate parser results on
concrete inputs. -/
instance instDecEqExcept {ε α : Type} [DecidableEq ε] [DecidableEq α] :
    DecidableEq (Except ε α)
  | .error e, .error f =>
    if h : e = f then .isTrue (by rw [h])
    else .isFalse (fun hh => h (Except.error.inj hh))
  | .error _, .ok _ => .isFalse (fun hh => Except.noConfusion hh)
  | .ok _, .error _ => .isFalse (fun hh => Except.noConfusion hh)
  | .ok a, .ok b =>
    if h : a = b then .isTrue (by rw [h])
    else .isFalse (fun hh => h (Except.ok.inj hh))

/-- The process environment table: a case-sensitive map from variable names
to optional textual values (`none` = variable absent), the sole external
collaborator of the package (`os.LookupEnv`). -/
def Env : Type := String → Option String

/-- `strconv`'s two failure categories: `ErrSyntax` and `ErrRange`. -/
inductive ErrReason where
  | invalidSyntax
  | outOfRange
deriving DecidableEq

/-- Rendering of the failure category inside a `strconv.NumError` message. -/
def ErrReason.msg : ErrReason → String
  | .invalidSyntax => "invalid syntax"
  | .outOfRange => "value out of range"

/-- Go's `strconv.NumError`: the failing function, the offending text and
the reason. -/
structure NumError where
  fn : String
  num : String
  reason : ErrReason
deriving DecidableEq

/-- The `Error()` rendering of a `strconv.NumError`:
`strconv.<fn>: parsing "<num>": <reason>`.  (Go quotes the offending text
with `strconv.Quote`; for texts free of characters needing escapes, which
is every text exercised here, that is the verbatim text between double
quotes.) -/
def NumError.message (e : NumError) : String :=
  ("strconv." ++ e.fn) ++ (": parsing \"" ++ (e.num ++ ("\": " ++ e.reason.msg)))

/-- `2^64 - 1`, the largest `uint64`. -/
def maxUint64 : Nat := 2 ^ 64 - 1

/-- `2^63 - 1`, the largest `int64`. -/
def maxInt64 : Nat := 2 ^ 63 - 1

/-- `strconv.IntSize` on a platform whose native integer width is 64 bits
(the widths of Go's `int` and `uint` there). -/
def goIntSize : Nat := 64

/-- The decimal-accumulation cutoff of `strconv.ParseUint` for base 10:
once the accumulator reaches this bound, one more digit overflows
`uint64`. -/
def uintCutoff : Nat := maxUint64 / 10 + 1

/-- Is `c` an ASCII decimal digit (`'0' ≤ c ≤ '9'`)? -/
def isDigit (c : Char) : Bool := 48 ≤ c.toNat && c.toNat ≤ 57

/-- The numeric value of an ASCII decimal digit (`c - '0'`). -/
def digitVal (c : Char) : Nat := c.toNat - 48

/-- `strconv.ParseBool`: the exact twelve-token set accepted by the Go
standard library switch. -/
def parseBool (str : String) : Except NumError Bool :=
  if str = ("1") ∨ str = ("t") ∨ str = ("T") ∨ str = ("true") ∨
      str = ("TRUE") ∨ str = ("True") then .ok true
  else if str = ("0") ∨ str = ("f") ∨ str = ("F") ∨ str = ("false") ∨
      str = ("FALSE") ∨ str = ("False") then .ok false
  else .error ⟨("ParseBool"), str, .invalidSyntax⟩

/-- The truthy tokens of `strconv.ParseBool`. -/
def goTrueTokens : List String := [("1"), ("t"), ("T"), ("true"), ("TRUE"), ("True")]

/-- The falsy tokens of `strconv.ParseBool`. -/
def goFalseTokens : List String := [("0"), ("f"), ("F"), ("false"), ("FALSE"), ("False")]

/-- The digit loop of `strconv.ParseUint` for base 10: per character, a
non-digit is a syntax error; an accumulator at or above `uintCutoff` or a
step product exceeding `maxVal` is a range error. -/
def parseUintLoop (maxVal : Nat) : List Char → Nat → Except ErrReason Nat
  | [], n => .ok n
  | c :: cs, n =>
    if isDigit c then
      if uintCutoff ≤ n then .error .outOfRange
      else if maxVal < n * 10 + digitVal c then .error .outOfRange
      else parseUintLoop maxVal cs (n * 10 + digitVal c)
    else .error .invalidSyntax

/-- `strconv.ParseUint` body for base 10 on a character list: empty input
is a syntax error, otherwise run the digit loop against `maxVal`. -/
def parseUintCore (l : List Char) (maxVal : Nat) : Except ErrReason Nat :=
  if l = [] then .error .invalidSyntax
  else parseUintLoop maxVal l 0

/-- `strconv.ParseUint(s, 10, bitSize)`; `bitSize = 0` means the native
width `goIntSize`. -/
def parseUint (s : String) (bitSize : Nat) : Except NumError Nat :=
  let bs := if bitSize = 0 then goIntSize else bitSize
  match parseUintCore s.data (2 ^ bs - 1) with
  | .ok n => .ok n
  | .error r => .error ⟨("ParseUint"), s, r⟩

/-- The signed-cutoff tail of `strconv.ParseInt`: compare the unsigned
magnitude `un` against `2^(bitSize-1)` (`bitSize = 0` meaning the native
width) and attach the sign. -/
def intCheck (s : String) (neg : Bool) (un : Nat) (bitSize : Nat) :
    Except NumError Int :=
  let bs := if bitSize = 0 then goIntSize else bitSize
  let cutoff := 2 ^ (bs - 1)
  if neg then
    if cutoff < un then .error ⟨("ParseInt"), s, .outOfRange⟩
    else .ok (-(un : Int))
  else
    if cutoff ≤ un then .error ⟨("ParseInt"), s, .outOfRange⟩
    else .ok (un : Int)

/-- `strconv.ParseInt(s, 10, bitSize)`: strip an optional sign, run the
unsigned parse at 64 bits, then check the signed cutoff.  A range error
from the unsigned phase leaves the accumulator at `maxUint64`, which then
fails the signed cutoff check, exactly as in Go.  Errors carry the
original text `s` (Go rewrites `Func`/`Num` on the inner error). -/
def parseInt (s : String) (bitSize : Nat) : Except NumError Int :=
  match s.data with
  | [] => .error ⟨("ParseInt"), s, .invalidSyntax⟩
  | c :: rest =>
    match parseUintCore (if c = '-' ∨ c = '+' then rest else c :: rest)
        maxUint64 with
    | .error .invalidSyntax => .error ⟨("ParseInt"), s, .invalidSyntax⟩
    | .error .outOfRange => intCheck s (c == '-') maxUint64 bitSize
    | .ok n => intCheck s (c == '-') n bitSize

/-- Lower-case an ASCII upper-case letter (identity elsewhere). -/
def lowerAscii (c : Char) : Char :=
  if 65 ≤ c.toNat ∧ c.toNat ≤ 90 then Char.ofNat (c.toNat + 32) else c

/-- ASCII case-insensitive string equality. -/
def caseInsensEq (a b : String) : Bool :=
  a.data.map lowerAscii == b.data.map lowerAscii

/-- The value carrier for `float64` results.  The accessors under
verification never compute with the parsed number, so finite values are
carried as the exact decimal the text denotes, `±m * 10^e` (IEEE-754
rounding of `strconv.ParseFloat` is not modelled; no claim concerns
it). -/
inductive GoFloat where
  | finite (neg : Bool) (m : Nat) (e : Int)
  | inf (neg : Bool)
  | nan
deriving DecidableEq

/-- The `float64` zero value `0.0`. -/
def GoFloat.zero : GoFloat := .finite false 0 0

/-- Strip an optional leading sign, reporting whether it was `'-'`. -/
def splitSign : List Char → Bool × List Char
  | '+' :: t => (false, t)
  | '-' :: t => (true, t)
  | l => (false, l)

/-- The special values `strconv.ParseFloat` accepts before numeric
parsing: optionally signed, ASCII case-insensitive `inf`, `infinity` or
`nan`, consuming the whole input. -/
def parseFloatSpecial (s : String) : Option GoFloat :=
  match splitSign s.data with
  | (neg, t) =>
    let ts : String := String.mk t
    if caseInsensEq ts ("inf") ∨ caseInsensEq ts ("infinity") then some (.inf neg)
    else if caseInsensEq ts ("nan") then some .nan
    else none

/-- Fold a digit list into the `Nat` it denotes in base 10. -/
def digitsToNat (ds : List Char) : Nat :=
  ds.foldl (fun a c => a * 10 + digitVal c) 0

/-- The decimal / scientific-notation grammar of `strconv.ParseFloat` as
the spec states it: optional sign, digits with an optional fractional
part (at least one digit overall), optional `e`/`E` exponent with
optional sign and at least one digit, whole input consumed.  Returns
`(neg, mantissa, exp10)` with value `±mantissa * 10^exp10`.
(`strconv.ParseFloat`'s source is Go standard library code outside this
repository; its hexadecimal-float and digit-underscore forms, which no
claim or spec sentence mentions, are not modelled.) -/
def parseFloatGrammar (s : String) : Option (Bool × Nat × Int) :=
  match splitSign s.data with
  | (neg, t1) =>
    let ip := t1.takeWhile isDigit
    let t2 := t1.dropWhile isDigit
    let fp := match t2 with
      | '.' :: u => u.takeWhile isDigit
      | _ => []
    let t3 := match t2 with
      | '.' :: u => u.dropWhile isDigit
      | _ => t2
    if ip = [] ∧ fp = [] then none
    else
      let m := digitsToNat (ip ++ fp)
      let e0 : Int := -(fp.length : Int)
      match t3 with
      | [] => some (neg, m, e0)
      | c :: u =>
        if c = 'e' ∨ c = 'E' then
          match splitSign u with
          | (eneg, u1) =>
            let ed := u1.takeWhile isDigit
            let u2 := u1.dropWhile isDigit
            if ed = [] ∨ u2 ≠ [] then none
            else
              let e : Int := (digitsToNat ed : Int)
              some (neg, m, e0 + (if eneg then -e else e))
        else none

/-- `2^1024 - 2^970`: magnitudes at or above this bound round to `±Inf`
(beyond half an ULP past the largest finite `float64`), which
`strconv.ParseFloat` reports as a range error. -/
def floatOverflowNum : Nat := 2 ^ 1024 - 2 ^ 970

/-- Does `m * 10^e ≥ floatOverflowNum` hold?  (Denominators cleared so the
test is pure `Nat` arithmetic.) -/
def floatOverflows (m : Nat) (e : Int) : Bool :=
  if 0 ≤ e then floatOverflowNum ≤ m * 10 ^ e.toNat
  else floatOverflowNum * 10 ^ (-e).toNat ≤ m

/-- Does `0 < m * 10^e < 2^(-1075)` hold (positive magnitudes below half
the smallest subnormal `float64` round to `0`, a range error)? -/
def floatUnderflows (m : Nat) (e : Int) : Bool :=
  decide (m ≠ 0) && (if 0 ≤ e then false else decide (m * 2 ^ 1075 < 10 ^ (-e).toNat))

/-- `strconv.ParseFloat(s, 64)`: specials, then the decimal grammar, then
the range classification. -/
def parseFloat (s : String) : Except NumError GoFloat :=
  match parseFloatSpecial s with
  | some f => .ok f
  | none =>
    match parseFloatGrammar s with
    | none => .error ⟨("ParseFloat"), s, .invalidSyntax⟩
    | some (neg, m, e) =>
      if floatOverflows m e then .error ⟨("ParseFloat"), s, .outOfRange⟩
      else if floatUnderflows m e then .error ⟨("ParseFloat"), s, .outOfRange⟩
      else .ok (.finite neg m e)

/-- The failure shapes of `time.ParseDuration`. -/
inductive DurReason where
  | invalid
  | missingUnit
  | unknownUnit (u : String)
deriving DecidableEq

/-- A `time.ParseDuration` error: the failure shape plus the original
input text. -/
structure DurationError where
  reason : DurReason
  orig : String
deriving DecidableEq

/-- The `Error()` rendering of a `time.ParseDuration` failure, in the
unquoted form the repository's tests pin down
(`time: invalid duration 30` etc.). -/
def DurationError.message (e : DurationError) : String :=
  match e.reason with
  | .invalid => ("time: invalid duration ") ++ e.orig
  | .missingUnit => ("time: missing unit in duration ") ++ e.orig
  | .unknownUnit u => ("time: unknown unit ") ++ (u ++ ((" in duration ") ++ e.orig))

/-- `time.ParseDuration`'s unit table, in nanoseconds. -/
def unitMap (u : String) : Option Nat :=
  if u = ("ns") then some 1
  else if u = ("us") ∨ u = ("µs") ∨ u = ("μs") then some 1000
  else if u = ("ms") then some 1000000
  else if u = ("s") then some 1000000000
  else if u = ("m") then some 60000000000
  else if u = ("h") then some 3600000000000
  else none

/-- `time.leadingInt`: consume leading decimal digits into an `int64`
accumulator; `none` is the overflow error (`errLeadingInt`). -/
def leadingInt : List Char → Nat → Option (Nat × List Char)
  | [], x => some (x, [])
  | c :: cs, x =>
    if isDigit c then
      if maxInt64 / 10 < x then none
      else if maxInt64 < x * 10 + digitVal c then none
      else leadingInt cs (x * 10 + digitVal c)
    else some (x, c :: cs)

/-- `time.leadingFraction`: consume digits after the decimal point,
tracking the scale `10^k`; once the accumulator would overflow `int64`
further digits are consumed without effect. -/
def leadingFraction : List Char → Nat → Nat → Bool → Nat × Nat × List Char
  | [], x, scale, _ => (x, scale, [])
  | c :: cs, x, scale, overflow =>
    if isDigit c then
      if overflow then leadingFraction cs x scale true
      else if maxInt64 / 10 < x then leadingFraction cs x scale true
      else if maxInt64 < x * 10 + digitVal c then leadingFraction cs x scale true
      else leadingFraction cs (x * 10 + digitVal c) (scale * 10) false
    else (x, scale, c :: cs)

/-- One-or-more terms of `time.ParseDuration`: each term is
digits-and-or-fraction followed by a unit; `d` accumulates nanoseconds
(kept within `int64` by the overflow checks).  Go's fractional
contribution `int64(float64(f) * (float64(unit) / scale))` is rendered
with exact integer arithmetic as `f * unit / scale`.  `fuel` bounds the
recursion; every iteration consumes at least one input character, so
`fuel = length + 1` never runs out. -/
def durLoop (neg : Bool) : Nat → List Char → Nat → Except DurReason Int
  | 0, _, _ => .error .invalid
  | _ + 1, [], d => .ok (if neg then -(d : Int) else (d : Int))
  | fuel + 1, c :: l, d =>
    if ¬(c = '.' ∨ isDigit c) then .error .invalid
    else
      match leadingInt (c :: l) 0 with
      | none => .error .invalid
      | some (v, s1) =>
        let pre := s1.length ≠ (c :: l).length
        let fsp : Nat × Nat × List Char × Bool :=
          match s1 with
          | '.' :: u =>
            match leadingFraction u 0 1 false with
            | (f, scale, s2) => (f, scale, s2, s2.length ≠ u.length)
          | _ => (0, 1, s1, false)
        match fsp with
        | (f, scale, s2, post) =>
          if ¬pre ∧ ¬post then .error .invalid
          else
            let u := s2.takeWhile (fun c => ¬(c = '.' ∨ isDigit c))
            let s3 := s2.dropWhile (fun c => ¬(c = '.' ∨ isDigit c))
            if u = [] then .error .missingUnit
            else
              match unitMap (String.mk u) with
              | none => .error (.unknownUnit (String.mk u))
              | some unit =>
                if maxInt64 / unit < v then .error .invalid
                else
                  let v1 := v * unit + f * unit / scale
                  if maxInt64 < v1 then .error .invalid
                  else if maxInt64 < d + v1 then .error .invalid
                  else durLoop neg fuel s3 (d + v1)

/-- `time.ParseDuration`: optional sign, the special whole input `"0"`,
otherwise one or more number-unit terms.  Result in nanoseconds
(`time.Duration` = `int64`).  Every error site in the Go loop pairs its
failure shape with the original input text `orig`; that pairing is
applied here once, at the top. -/
def parseDuration (s : String) : Except DurationError Int :=
  match splitSign s.data with
  | (neg, l0) =>
    if l0 = ['0'] then .ok 0
    else if l0 = [] then .error ⟨.invalid, s⟩
    else
      match durLoop neg (l0.length + 1) l0 0 with
      | .ok d => .ok d
      | .error r => .error ⟨r, s⟩

/-! The fifteen public accessors of `src/defenv.go`.  Each is a direct
translation: look the name up, and branch on the parse result exactly as
the Go function does.  They carry the spec's language-agnostic `Get…`
names because the Go names (`Bool`, `Int`, `String`, …) collide with
Lean's core types. -/

/-- `defenv.Bool` (src/defenv.go:23). -/
def GetBool (env : Env) (name : String) (defaultValue : Bool) : Bool :=
  match env name with
  | some strVal =>
    match parseBool strVal with
    | .ok res => res
    | .error _ => defaultValue
  | none => defaultValue

/-- `defenv.BoolStrict` (src/defenv.go:36). -/
def GetBoolStrict (env : Env) (name : String) (defaultValue : Bool) :
    Bool × Option NumError :=
  match env name with
  | some strVal =>
    match parseBool strVal with
    | .error e => (false, some e)
    | .ok res => (res, none)
  | none => (defaultValue, none)

/-- `defenv.Duration` (src/defenv.go:51); `time.Duration` is `int64`
nanoseconds, modelled as `Int`. -/
def GetDuration (env : Env) (name : String) (defaultValue : Int) : Int :=
  match env name with
  | some strVal =>
    match parseDuration strVal with
    | .ok d => d
    | .error _ => defaultValue
  | none => defaultValue

/-- `defenv.DurationStrict` (src/defenv.go:64). -/
def GetDurationStrict (env : Env) (name : String) (defaultValue : Int) :
    Int × Option DurationError :=
  match env name with
  | some strVal =>
    match parseDuration strVal with
    | .error e => (0, some e)
    | .ok d => (d, none)
  | none => (defaultValue, none)

/-- `defenv.Float64` (src/defenv.go:79). -/
def GetFloat64 (env : Env) (name : String) (defaultValue : GoFloat) : GoFloat :=
  match env name with
  | some strVal =>
    match parseFloat strVal with
    | .ok f => f
    | .error _ => defaultValue
  | none => defaultValue

/-- `defenv.Float64Strict` (src/defenv.go:92). -/
def GetFloat64Strict (env : Env) (name : String) (defaultValue : GoFloat) :
    GoFloat × Option NumError :=
  match env name with
  | some strVal =>
    match parseFloat strVal with
    | .error e => (GoFloat.zero, some e)
    | .ok f => (f, none)
  | none => (defaultValue, none)

/-- `defenv.Int` (src/defenv.go:107): `strconv.ParseInt(strVal, 10, 0)`;
the final `int(i64)` conversion is the identity on a 64-bit platform
since the parsed value already fits the native width. -/
def GetInt (env : Env) (name : String) (defaultValue : Int) : Int :=
  match env name with
  | some strVal =>
    match parseInt strVal 0 with
    | .ok i => i
    | .error _ => defaultValue
  | none => defaultValue

/-- `defenv.IntStrict` (src/defenv.go:120). -/
def GetIntStrict (env : Env) (name : String) (defaultValue : Int) :
    Int × Option NumError :=
  match env name with
  | some strVal =>
    match parseInt strVal 0 with
    | .error e => (0, some e)
    | .ok i => (i, none)
  | none => (defaultValue, none)

/-- `defenv.Int64` (src/defenv.go:135). -/
def GetInt64 (env : Env) (name : String) (defaultValue : Int) : Int :=
  match env name with
  | some strVal =>
    match parseInt strVal 64 with
    | .ok i => i
    | .error _ => defaultValue
  | none => defaultValue

/-- `defenv.Int64Strict` (src/defenv.go:148). -/
def GetInt64Strict (env : Env) (name : String) (defaultValue : Int) :
    Int × Option NumError :=
  match env name with
  | some strVal =>
    match parseInt strVal 64 with
    | .error e => (0, some e)
    | .ok i => (i, none)
  | none => (defaultValue, none)

/-- `defenv.String` (src/defenv.go:163): no parsing at all. -/
def GetString (env : Env) (name : String) (defaultValue : String) : String :=
  match env name with
  | some val => val
  | none => defaultValue

/-- `defenv.Uint` (src/defenv.go:172): `strconv.ParseUint(strVal, 10, 0)`;
the final `uint(i64)` conversion is the identity on a 64-bit platform. -/
def GetUint (env : Env) (name : String) (defaultValue : Nat) : Nat :=
  match env name with
  | some strVal =>
    match parseUint strVal 0 with
    | .ok n => n
    | .error _ => defaultValue
  | none => defaultValue

/-- `defenv.UintStrict` (src/defenv.go:187). -/
def GetUintStrict (env : Env) (name : String) (defaultValue : Nat) :
    Nat × Option NumError :=
  match env name with
  | some strVal =>
    match parseUint strVal 0 with
    | .error e => (0, some e)
    | .ok n => (n, none)
  | none => (defaultValue, none)

/-- `defenv.Uint64` (src/defenv.go:202). -/
def GetUint64 (env : Env) (name : String) (defaultValue : Nat) : Nat :=
  match env name with
  | some strVal =>
    match parseUint strVal 64 with
    | .ok n => n
    | .error _ => defaultValue
  | none => defaultValue

/-- `defenv.Uint64Strict` (src/defenv.go:215). -/
def GetUint64Strict (env : Env) (name : String) (defaultValue : Nat) :
    Nat × Option NumError :=
  match env name with
  | some strVal =>
    match parseUint strVal 64 with
    | .error e => (0, some e)
    | .ok n => (n, none)
  | none => (defaultValue, none)

/-! String-containment machinery, used to state that an error message
includes the offending text / the reason category. -/

/-- Does `pat` lead `l` (i.e. is `pat` an initial segment of `l`)? -/
def leadMatch : List Char → List Char → Bool
  | [], _ => true
  | _ :: _, [] => false
  | a :: as, b :: bs => a == b && leadMatch as bs

/-- Does `pat` occur contiguously anywhere inside `l`? -/
def listHas (pat : List Char) : List Char → Bool
  | [] => pat.isEmpty
  | c :: t => leadMatch pat (c :: t) || listHas pat t

/-- `m` contains `x` as a contiguous substring. -/
def containsStr (m x : String) : Prop := ∃ p q : String, m = p ++ x ++ q

/-- A one-entry environment holding `VALUE = v`, as the repository's tests
set up. -/
def envWith (v : String) : Env :=
  fun k => if k = ("VALUE") then some v else none

/-- Base-10 accumulation of a digit list on top of a start value `n`; the
pure counterpart of the `strconv.ParseUint` loop. -/
def valAcc (n : Nat) (ds : List Char) : Nat :=
  ds.foldl (fun a c => a * 10 + digitVal c) n

/-- Spec-side shape predicate: base-10 signed integer text (an optional
leading sign followed by one or more decimal digits), the grammar the
spec gives for `int` / `int64`. -/
def isSignedDecimal (s : String) : Bool :=
  match s.data with
  | [] => false
  | c :: rest =>
    if c = '-' ∨ c = '+' then !rest.isEmpty && rest.all isDigit
    else (c :: rest).all isDigit

/-- The integer a base-10 signed decimal text denotes. -/
def signedDecimalVal (s : String) : Int :=
  match s.data with
  | [] => 0
  | c :: rest =>
    if c = '-' then -(valAcc 0 rest : Int)
    else if c = '+' then (valAcc 0 rest : Int)
    else (valAcc 0 (c :: rest) : Int)

theorem leadMatch_iff (pat : List Char) :
    ∀ l, leadMatch pat l = true ↔ ∃ t, l = pat ++ t := by
  induction pat with
  | nil => intro l; simp [leadMatch]
  | cons a as ih =>
    intro l
    cases l with
    | nil => simp [leadMatch]
    | cons b bs =>
      simp only [leadMatch, Bool.and_eq_true, beq_iff_eq, ih bs, List.cons_append,
        List.cons.injEq]
      constructor
      · rintro ⟨h1, t, h2⟩; exact ⟨t, h1.symm, h2⟩
      · rintro ⟨t, h1, h2⟩; exact ⟨h1.symm, t, h2⟩

theorem listHas_iff (pat : List Char) :
    ∀ l, listHas pat l = true ↔ ∃ u v, l = u ++ pat ++ v := by
  intro l
  induction l with
  | nil =>
    simp only [listHas, List.isEmpty_iff]
    constructor
    · rintro rfl; exact ⟨[], [], rfl⟩
    · rintro ⟨u, v, h⟩
      rcases List.append_eq_nil.1 h.symm with ⟨h1, h2⟩
      exact (List.append_eq_nil.1 h1).2
  | cons c t ih =>
    simp only [listHas, Bool.or_eq_true, leadMatch_iff, ih]
    constructor
    · rintro (⟨t', ht⟩ | ⟨u, v, hv⟩)
      · exact ⟨[], t', by simp [ht]⟩
      · exact ⟨c :: u, v, by simp [hv]⟩
    · rintro ⟨u, v, huv⟩
      cases u with
      | nil => exact Or.inl ⟨v, by simpa using huv⟩
      | cons x xs =>
        simp only [List.cons_append, List.cons.injEq] at huv
        exact Or.inr ⟨xs, v, huv.2⟩

theorem containsStr_iff (m x : String) :
    containsStr m x ↔ listHas x.data m.data = true := by
  rw [listHas_iff]
  constructor
  · rintro ⟨p, q, rfl⟩
    exact ⟨p.data, q.data, by simp [String.data_append]⟩
  · rintro ⟨u, v, h⟩
    refine ⟨String.mk u, String.mk v, String.ext ?_⟩
    simpa [String.data_append] using h

/-- A `strconv.NumError` message contains the offending text. -/
theorem numError_message_contains_num (e : NumError) :
    containsStr e.message e.num := by
  refine ⟨("strconv.") ++ e.fn ++ (": parsing \""), ("\": ") ++ e.reason.msg,
    String.ext ?_⟩
  simp [NumError.message, String.data_append]

/-- A `strconv.NumError` message contains the rendering of its reason
category. -/
theorem numError_message_contains_reason (e : NumError) :
    containsStr e.message e.reason.msg := by
  refine ⟨("strconv.") ++ e.fn ++ (": parsing \"") ++ e.num ++ ("\": "), (""),
    String.ext ?_⟩
  simp [NumError.message, String.data_append]

/-- A `time.ParseDuration` error message contains the offending text. -/
theorem durError_message_contains_orig (e : DurationError) :
    containsStr e.message e.orig := by
  rcases e with ⟨r, orig⟩
  cases r with
  | invalid =>
    exact ⟨("time: invalid duration "), (""),
      String.ext (by simp [DurationError.message, String.data_append])⟩
  | missingUnit =>
    exact ⟨("time: missing unit in duration "), (""),
      String.ext (by simp [DurationError.message, String.data_append])⟩
  | unknownUnit u =>
    exact ⟨("time: unknown unit ") ++ u ++ (" in duration "), (""),
      String.ext (by simp [DurationError.message, String.data_append])⟩

/-- Every `parseBool` failure is the invalid-syntax error carrying the
full input text. -/
theorem parseBool_error_shape (s : String) (e : NumError)
    (h : parseBool s = .error e) : e = ⟨("ParseBool"), s, .invalidSyntax⟩ := by
  unfold parseBool at h
  split_ifs at h
  all_goals simp_all

/-- Every `parseUint` failure carries the full input text. -/
theorem parseUint_error_shape (s : String) (b : Nat) (e : NumError)
    (h : parseUint s b = .error e) : ∃ r, e = ⟨("ParseUint"), s, r⟩ := by
  simp only [parseUint] at h
  rcases hcore : parseUintCore s.data (2 ^ (if b = 0 then goIntSize else b) - 1) with r | n
  · rw [hcore] at h
    exact ⟨r, by simp_all⟩
  · rw [hcore] at h
    simp_all

/-- Every `intCheck` failure is the out-of-range error carrying the full
input text. -/
theorem intCheck_error_shape (s : String) (neg : Bool) (un b : Nat)
    (e : NumError) (h : intCheck s neg un b = .error e) :
    e = ⟨("ParseInt"), s, .outOfRange⟩ := by
  simp only [intCheck] at h
  split_ifs at h <;>
    first
    | exact Except.noConfusion h
    | exact (Except.error.inj h).symm

/-- Every `parseInt` failure carries the full input text. -/
theorem parseInt_error_shape (s : String) (b : Nat) (e : NumError)
    (h : parseInt s b = .error e) : ∃ r, e = ⟨("ParseInt"), s, r⟩ := by
  simp only [parseInt] at h
  split at h
  · exact ⟨.invalidSyntax, (Except.error.inj h).symm⟩
  · split at h
    · exact ⟨.invalidSyntax, (Except.error.inj h).symm⟩
    · exact ⟨.outOfRange, intCheck_error_shape _ _ _ _ _ h⟩
    · exact ⟨.outOfRange, intCheck_error_shape _ _ _ _ _ h⟩

/-- Every `parseFloat` failure carries the full input text. -/
theorem parseFloat_error_shape (s : String) (e : NumError)
    (h : parseFloat s = .error e) : ∃ r, e = ⟨("ParseFloat"), s, r⟩ := by
  simp only [parseFloat] at h
  split at h
  · exact Except.noConfusion h
  · split at h
    · exact ⟨.invalidSyntax, (Except.error.inj h).symm⟩
    · split_ifs at h <;>
        first
        | exact Except.noConfusion h
        | exact ⟨.outOfRange, (Except.error.inj h).symm⟩

/-- Every `parseDuration` failure carries the full input text. -/
theorem parseDuration_error_shape (s : String) (e : DurationError)
    (h : parseDuration s = .error e) : ∃ r, e = ⟨r, s⟩ := by
  simp only [parseDuration] at h
  split_ifs at h <;>
    first
    | exact Except.noConfusion h
    | exact ⟨.invalid, (Except.error.inj h).symm⟩
    | (split at h
       next => exact Except.noConfusion h
       next => exact ⟨_, (Except.error.inj h).symm⟩)

/-! Arithmetic characterization of the `strconv.ParseUint` digit loop,
needed to settle the out-of-range claims. -/

theorem digitVal_le_nine (c : Char) (hc : isDigit c = true) : digitVal c ≤ 9 := by
  simp only [isDigit, Bool.and_eq_true, decide_eq_true_eq] at hc
  unfold digitVal
  omega

theorem valAcc_cons (n : Nat) (c : Char) (cs : List Char) :
    valAcc n (c :: cs) = valAcc (n * 10 + digitVal c) cs := rfl

theorem le_valAcc (ds : List Char) : ∀ n, n ≤ valAcc n ds := by
  induction ds with
  | nil => intro n; exact Nat.le_refl n
  | cons c cs ih =>
    intro n
    rw [valAcc_cons]
    calc n ≤ n * 10 + digitVal c := by omega
      _ ≤ valAcc (n * 10 + digitVal c) cs := ih _

theorem parseUintLoop_ok (maxVal : Nat) (hmax : maxVal ≤ maxUint64) :
    ∀ ds n, ds.all isDigit = true → valAcc n ds ≤ maxVal →
      parseUintLoop maxVal ds n = .ok (valAcc n ds) := by
  intro ds
  induction ds with
  | nil => intro n _ _; rfl
  | cons c cs ih =>
    intro n hall hval
    simp only [List.all_cons, Bool.and_eq_true] at hall
    obtain ⟨hc, hcs⟩ := hall
    rw [valAcc_cons] at hval ⊢
    have hstep : n * 10 + digitVal c ≤ valAcc (n * 10 + digitVal c) cs :=
      le_valAcc cs _
    have hM : maxUint64 = 18446744073709551615 := by norm_num [maxUint64]
    have hcut : uintCutoff = 1844674407370955162 := by
      norm_num [uintCutoff, maxUint64]
    rw [parseUintLoop, if_pos hc, if_neg (by omega), if_neg (by omega)]
    exact ih _ hcs hval

theorem parseUintLoop_range (maxVal : Nat) :
    ∀ ds n, ds.all isDigit = true → n ≤ maxVal → maxVal < valAcc n ds →
      parseUintLoop maxVal ds n = .error .outOfRange := by
  intro ds
  induction ds with
  | nil =>
    intro n _ hn hval
    exact absurd hval (by simp [valAcc]; omega)
  | cons c cs ih =>
    intro n hall hn hval
    simp only [List.all_cons, Bool.and_eq_true] at hall
    obtain ⟨hc, hcs⟩ := hall
    rw [valAcc_cons] at hval
    have hd : digitVal c ≤ 9 := digitVal_le_nine c hc
    have hM : maxUint64 = 18446744073709551615 := by norm_num [maxUint64]
    have hcut : uintCutoff = 1844674407370955162 := by
      norm_num [uintCutoff, maxUint64]
    rw [parseUintLoop, if_pos hc]
    by_cases h1 : uintCutoff ≤ n
    · rw [if_pos h1]
    · rw [if_neg h1]
      by_cases h2 : maxVal < n * 10 + digitVal c
      · rw [if_pos h2]
      · rw [if_neg h2]
        exact ih _ hcs (by omega) hval

/-- On a non-empty all-digit list, the digit loop of `strconv.ParseUint`
computes the denoted value when it fits and reports a range error when it
does not. -/
theorem parseUintCore_digits (ds : List Char) (hne : ds ≠ [])
    (hall : ds.all isDigit = true) (maxVal : Nat)
    (hmax : maxVal ≤ maxUint64) :
    parseUintCore ds maxVal =
      if valAcc 0 ds ≤ maxVal then .ok (valAcc 0 ds)
      else .error .outOfRange := by
  unfold parseUintCore
  rw [if_neg hne]
  split_ifs with hv
  · exact parseUintLoop_ok maxVal hmax ds 0 hall hv
  · exact parseUintLoop_range maxVal ds 0 hall (Nat.zero_le _) (by omega)

theorem intCheck_range_pos (s : String) (un : Nat) (h : 2 ^ 63 ≤ un) :
    intCheck s false un 0 = .error ⟨("ParseInt"), s, .outOfRange⟩ := by
  have h' : (9223372036854775808 : Nat) ≤ un := by norm_num at h; exact h
  simp [intCheck, goIntSize, h']

theorem intCheck_range_neg (s : String) (un : Nat) (h : 2 ^ 63 < un) :
    intCheck s true un 0 = .error ⟨("ParseInt"), s, .outOfRange⟩ := by
  have h' : (9223372036854775808 : Nat) < un := by norm_num at h; exact h
  simp [intCheck, goIntSize, h']

theorem signedDecimalVal_cons (c : Char) (rest : List Char) (s : String)
    (hs : s.data = c :: rest) :
    signedDecimalVal s =
      (if c = '-' then -(valAcc 0 rest : Int)
       else if c = '+' then (valAcc 0 rest : Int)
       else (valAcc 0 (c :: rest) : Int)) := by
  unfold signedDecimalVal
  rw [hs]

/-- `strconv.ParseInt` at native width reports `value out of range` on
every base-10 signed decimal text whose value exceeds the `int64`
range. -/
theorem parseInt_out_of_range (s : String) (hshape : isSignedDecimal s = true)
    (hout : signedDecimalVal s < -(2 ^ 63) ∨ (2 ^ 63 - 1 : Int) < signedDecimalVal s) :
    parseInt s 0 = .error ⟨("ParseInt"), s, .outOfRange⟩ := by
  have h263 : ((9223372036854775808 : Nat) : Int) = 2 ^ 63 := by norm_num
  rcases hs : s.data with _ | ⟨c, rest⟩
  · simp [isSignedDecimal, hs] at hshape
  · simp only [isSignedDecimal, hs] at hshape
    simp only [parseInt, hs]
    by_cases hsign : c = '-' ∨ c = '+'
    · rw [if_pos hsign] at hshape
      have hne : rest ≠ [] := by
        intro hrest
        rw [hrest] at hshape
        simp at hshape
      have hall : rest.all isDigit = true := by
        simp only [Bool.and_eq_true] at hshape
        exact hshape.2
      rw [if_pos hsign, parseUintCore_digits rest hne hall maxUint64 le_rfl]
      rcases hsign with hminus | hplus
      · subst hminus
        have hval : signedDecimalVal s = -(valAcc 0 rest : Int) := by
          rw [signedDecimalVal_cons _ _ _ hs, if_pos rfl]
        rw [hval] at hout
        have hVgt : 2 ^ 63 < valAcc 0 rest := by
          have hnn : (0 : Int) ≤ (valAcc 0 rest : Int) := Int.natCast_nonneg _
          rcases hout with h1 | h1 <;> omega
        by_cases hle : valAcc 0 rest ≤ maxUint64
        · rw [if_pos hle]
          show intCheck s (('-' : Char) == '-') (valAcc 0 rest) 0 = _
          rw [show (('-' : Char) == '-') = true from by decide]
          exact intCheck_range_neg s _ hVgt
        · rw [if_neg hle]
          show intCheck s (('-' : Char) == '-') maxUint64 0 = _
          rw [show (('-' : Char) == '-') = true from by decide]
          exact intCheck_range_neg s maxUint64 (by norm_num [maxUint64])
      · subst hplus
        have hval : signedDecimalVal s = (valAcc 0 rest : Int) := by
          rw [signedDecimalVal_cons _ _ _ hs,
            if_neg (by decide : ¬(('+' : Char) = '-')), if_pos rfl]
        rw [hval] at hout
        have hVge : 2 ^ 63 ≤ valAcc 0 rest := by
          have hnn : (0 : Int) ≤ (valAcc 0 rest : Int) := Int.natCast_nonneg _
          rcases hout with h1 | h1 <;> omega
        by_cases hle : valAcc 0 rest ≤ maxUint64
        · rw [if_pos hle]
          show intCheck s (('+' : Char) == '-') (valAcc 0 rest) 0 = _
          rw [show (('+' : Char) == '-') = false from by decide]
          exact intCheck_range_pos s _ hVge
        · rw [if_neg hle]
          show intCheck s (('+' : Char) == '-') maxUint64 0 = _
          rw [show (('+' : Char) == '-') = false from by decide]
          exact intCheck_range_pos s maxUint64 (by norm_num [maxUint64])
    · rw [if_neg hsign] at hshape
      have hval : signedDecimalVal s = (valAcc 0 (c :: rest) : Int) := by
        rw [signedDecimalVal_cons _ _ _ hs,
          if_neg (fun hh => hsign (Or.inl hh)),
          if_neg (fun hh => hsign (Or.inr hh))]
      rw [hval] at hout
      have hne : c :: rest ≠ [] := by simp
      rw [if_neg hsign, parseUintCore_digits (c :: rest) hne hshape maxUint64 le_rfl]
      have hVge : 2 ^ 63 ≤ valAcc 0 (c :: rest) := by
        have hnn : (0 : Int) ≤ (valAcc 0 (c :: rest) : Int) := Int.natCast_nonneg _
        rcases hout with h1 | h1 <;> omega
      have hbneg : (c == '-') = false := by
        rcases hbe : c == '-' with _ | _
        · rfl
        · exact absurd (Or.inl (by simpa [beq_iff_eq] using hbe)) hsign
      by_cases hle : valAcc 0 (c :: rest) ≤ maxUint64
      · rw [if_pos hle]
        show intCheck s (c == '-') (valAcc 0 (c :: rest)) 0 = _
        rw [hbneg]
        exact intCheck_range_pos s _ hVge
      · rw [if_neg hle]
        show intCheck s (c == '-') maxUint64 0 = _
        rw [hbneg]
        exact intCheck_range_pos s maxUint64 (by norm_num [maxUint64])

/-! Claim theorems. -/

/-- C1: for every type in {bool, duration, float64, int, int64, string,
uint, uint64}, every key absent from the environment and every default
`d`, the ordinary accessor returns `d` and the strict accessor returns
`(d, no error)`; absence never produces an error in either calling
mode. -/
theorem claim_c1_absence_never_errors (env : Env) (name : String)
    (h : env name = none) :
    (∀ d, GetBool env name d = d) ∧
    (∀ d, GetBoolStrict env name d = (d, none)) ∧
    (∀ d, GetDuration env name d = d) ∧
    (∀ d, GetDurationStrict env name d = (d, none)) ∧
    (∀ d, GetFloat64 env name d = d) ∧
    (∀ d, GetFloat64Strict env name d = (d, none)) ∧
    (∀ d, GetInt env name d = d) ∧
    (∀ d, GetIntStrict env name d = (d, none)) ∧
    (∀ d, GetInt64 env name d = d) ∧
    (∀ d, GetInt64Strict env name d = (d, none)) ∧
    (∀ d, GetString env name d = d) ∧
    (∀ d, GetUint env name d = d) ∧
    (∀ d, GetUintStrict env name d = (d, none)) ∧
    (∀ d, GetUint64 env name d = d) ∧
    (∀ d, GetUint64Strict env name d = (d, none)) := by
  refine ⟨?_, ?_, ?_, ?_, ?_, ?_, ?_, ?_, ?_, ?_, ?_, ?_, ?_, ?_, ?_⟩ <;>
    intro d <;>
    simp [GetBool, GetBoolStrict, GetDuration, GetDurationStrict, GetFloat64,
      GetFloat64Strict, GetInt, GetIntStrict, GetInt64, GetInt64Strict,
      GetString, GetUint, GetUintStrict, GetUint64, GetUint64Strict, h]

/-- Witness for C1 at the empty environment. -/
theorem claim_c1_absence_never_errors_witness :
    GetBool (fun _ => none) ("WORKER_NUMBER") true = true ∧
    GetDurationStrict (fun _ => none) ("WORKER_NUMBER") 7 = (7, none) ∧
    GetString (fun _ => none) ("WORKER_NUMBER") ("dflt") = ("dflt") ∧
    GetUint64Strict (fun _ => none) ("WORKER_NUMBER") 5 = (5, none) := by
  obtain ⟨h1, h2, h3, h4, h5, h6, h7, h8, h9, h10, h11, h12, h13, h14, h15⟩ :=
    claim_c1_absence_never_errors (fun _ => none) ("WORKER_NUMBER") rfl
  exact ⟨h1 true, h4 7, h11 ("dflt"), h15 5⟩

/-- C5: `String` returns any present value verbatim — the empty string
included — and the default exactly when the variable is absent. -/
theorem claim_c5_string_verbatim (env : Env) (name : String) :
    (∀ v d, env name = some v → GetString env name d = v) ∧
    (∀ d, env name = none → GetString env name d = d) := by
  constructor
  · intro v d h
    simp [GetString, h]
  · intro d h
    simp [GetString, h]

/-- Witness for C5: a present empty string is returned verbatim, absence
yields the default. -/
theorem claim_c5_string_verbatim_witness :
    GetString (fun k => if k = ("VALUE") then some ("") else none) ("VALUE")
        ("default") = ("") ∧
    GetString (fun _ => none) ("VALUE") ("default") = ("default") :=
  ⟨(claim_c5_string_verbatim _ ("VALUE")).1 ("") ("default") rfl,
   (claim_c5_string_verbatim _ ("VALUE")).2 ("default") rfl⟩

/-- C9: with the native integer width fixed at 64 bits (`goIntSize`),
the native-width accessors coincide with the fixed 64-bit ones for every
environment, key and default — same accepted texts, same values, same
failures. -/
theorem claim_c9_native_width_agrees (env : Env) (name : String) :
    (∀ d, GetInt env name d = GetInt64 env name d) ∧
    (∀ d, GetIntStrict env name d = GetInt64Strict env name d) ∧
    (∀ d, GetUint env name d = GetUint64 env name d) ∧
    (∀ d, GetUintStrict env name d = GetUint64Strict env name d) :=
  ⟨fun _ => rfl, fun _ => rfl, fun _ => rfl, fun _ => rfl⟩

/-- C10: every accessor reads only the entry of its own key: two
environments agreeing at `name` (both absent, or both present with the
same text) give identical results for all accessors and defaults. -/
theorem claim_c10_single_key_dependence (env1 env2 : Env) (name : String)
    (h : env1 name = env2 name) :
    (∀ d, GetBool env1 name d = GetBool env2 name d) ∧
    (∀ d, GetBoolStrict env1 name d = GetBoolStrict env2 name d) ∧
    (∀ d, GetDuration env1 name d = GetDuration env2 name d) ∧
    (∀ d, GetDurationStrict env1 name d = GetDurationStrict env2 name d) ∧
    (∀ d, GetFloat64 env1 name d = GetFloat64 env2 name d) ∧
    (∀ d, GetFloat64Strict env1 name d = GetFloat64Strict env2 name d) ∧
    (∀ d, GetInt env1 name d = GetInt env2 name d) ∧
    (∀ d, GetIntStrict env1 name d = GetIntStrict env2 name d) ∧
    (∀ d, GetInt64 env1 name d = GetInt64 env2 name d) ∧
    (∀ d, GetInt64Strict env1 name d = GetInt64Strict env2 name d) ∧
    (∀ d, GetString env1 name d = GetString env2 name d) ∧
    (∀ d, GetUint env1 name d = GetUint env2 name d) ∧
    (∀ d, GetUintStrict env1 name d = GetUintStrict env2 name d) ∧
    (∀ d, GetUint64 env1 name d = GetUint64 env2 name d) ∧
    (∀ d, GetUint64Strict env1 name d = GetUint64Strict env2 name d) := by
  refine ⟨?_, ?_, ?_, ?_, ?_, ?_, ?_, ?_, ?_, ?_, ?_, ?_, ?_, ?_, ?_⟩ <;>
    intro d <;>
    simp only [GetBool, GetBoolStrict, GetDuration, GetDurationStrict,
      GetFloat64, GetFloat64Strict, GetInt, GetIntStrict, GetInt64,
      GetInt64Strict, GetString, GetUint, GetUintStrict, GetUint64,
      GetUint64Strict, h]

/-- Witness for C10: two environments differing at every key but the one
read give the same results there. -/
theorem claim_c10_single_key_dependence_witness :
    GetBool (fun k => if k = ("A") then some ("1") else some ("other")) ("A")
        false
      = GetBool (fun k => if k = ("A") then some ("1") else none) ("A") false ∧
    GetUint64Strict (fun k => if k = ("A") then some ("1") else some ("other"))
        ("A") 3
      = GetUint64Strict (fun k => if k = ("A") then some ("1") else none) ("A")
        3 := by
  obtain ⟨h1, h2, h3, h4, h5, h6, h7, h8, h9, h10, h11, h12, h13, h14, h15⟩ :=
    claim_c10_single_key_dependence
      (fun k => if k = ("A") then some ("1") else some ("other"))
      (fun k => if k = ("A") then some ("1") else none) ("A") rfl
  exact ⟨h1 false, h15 3⟩

/-- C2: every ordinary accessor with a present value that its parser
rejects (for any reason) returns the supplied default; no error reaches
the caller. -/
theorem claim_c2_ordinary_absorbs_failures (env : Env) (name s : String)
    (h : env name = some s) :
    (∀ e d, parseBool s = .error e → GetBool env name d = d) ∧
    (∀ e d, parseDuration s = .error e → GetDuration env name d = d) ∧
    (∀ e d, parseFloat s = .error e → GetFloat64 env name d = d) ∧
    (∀ e d, parseInt s 0 = .error e → GetInt env name d = d) ∧
    (∀ e d, parseInt s 64 = .error e → GetInt64 env name d = d) ∧
    (∀ e d, parseUint s 0 = .error e → GetUint env name d = d) ∧
    (∀ e d, parseUint s 64 = .error e → GetUint64 env name d = d) := by
  refine ⟨?_, ?_, ?_, ?_, ?_, ?_, ?_⟩ <;> intro e d hp <;>
    simp [GetBool, GetDuration, GetFloat64, GetInt, GetInt64, GetUint,
      GetUint64, h, hp]

/-- Witness for C2 at the text `"bad"`, which every parser rejects. -/
theorem claim_c2_ordinary_absorbs_failures_witness :
    GetBool (envWith ("bad")) ("VALUE") true = true ∧
    GetDuration (envWith ("bad")) ("VALUE") 9 = 9 ∧
    GetFloat64 (envWith ("bad")) ("VALUE") (GoFloat.finite false 3 0)
      = GoFloat.finite false 3 0 ∧
    GetInt (envWith ("bad")) ("VALUE") 321 = 321 ∧
    GetInt64 (envWith ("bad")) ("VALUE") 321 = 321 ∧
    GetUint (envWith ("bad")) ("VALUE") 321 = 321 ∧
    GetUint64 (envWith ("bad")) ("VALUE") 321 = 321 := by
  obtain ⟨h1, h2, h3, h4, h5, h6, h7⟩ :=
    claim_c2_ordinary_absorbs_failures (envWith ("bad")) ("VALUE") ("bad") rfl
  exact ⟨h1 ⟨("ParseBool"), ("bad"), .invalidSyntax⟩ true (by decide),
    h2 ⟨.invalid, ("bad")⟩ 9 (by decide),
    h3 ⟨("ParseFloat"), ("bad"), .invalidSyntax⟩ _ (by decide),
    h4 ⟨("ParseInt"), ("bad"), .invalidSyntax⟩ 321 (by decide),
    h5 ⟨("ParseInt"), ("bad"), .invalidSyntax⟩ 321 (by decide),
    h6 ⟨("ParseUint"), ("bad"), .invalidSyntax⟩ 321 (by decide),
    h7 ⟨("ParseUint"), ("bad"), .invalidSyntax⟩ 321 (by decide)⟩

/-- C4: a present value whose parse succeeds yields the parsed value from
the ordinary and the strict form identically, the strict form reporting
no error. -/
theorem claim_c4_success_forms_agree (env : Env) (name s : String)
    (h : env name = some s) :
    (∀ v d, parseBool s = .ok v →
      GetBool env name d = v ∧ GetBoolStrict env name d = (v, none)) ∧
    (∀ v d, parseDuration s = .ok v →
      GetDuration env name d = v ∧ GetDurationStrict env name d = (v, none)) ∧
    (∀ v d, parseFloat s = .ok v →
      GetFloat64 env name d = v ∧ GetFloat64Strict env name d = (v, none)) ∧
    (∀ v d, parseInt s 0 = .ok v →
      GetInt env name d = v ∧ GetIntStrict env name d = (v, none)) ∧
    (∀ v d, parseInt s 64 = .ok v →
      GetInt64 env name d = v ∧ GetInt64Strict env name d = (v, none)) ∧
    (∀ v d, parseUint s 0 = .ok v →
      GetUint env name d = v ∧ GetUintStrict env name d = (v, none)) ∧
    (∀ v d, parseUint s 64 = .ok v →
      GetUint64 env name d = v ∧ GetUint64Strict env name d = (v, none)) := by
  refine ⟨?_, ?_, ?_, ?_, ?_, ?_, ?_⟩ <;> intro v d hp <;>
    exact ⟨by simp [GetBool, GetDuration, GetFloat64, GetInt, GetInt64,
        GetUint, GetUint64, h, hp],
      by simp [GetBoolStrict, GetDurationStrict, GetFloat64Strict,
        GetIntStrict, GetInt64Strict, GetUintStrict, GetUint64Strict, h, hp]⟩

/-- Witness for C4 on parsable texts of each type. -/
theorem claim_c4_success_forms_agree_witness :
    (GetBool (envWith ("1")) ("VALUE") false = true ∧
      GetBoolStrict (envWith ("1")) ("VALUE") false = (true, none)) ∧
    (GetDuration (envWith ("200ms")) ("VALUE") 9 = 200000000 ∧
      GetDurationStrict (envWith ("200ms")) ("VALUE") 9 = (200000000, none)) ∧
    (GetFloat64 (envWith ("3.14")) ("VALUE") GoFloat.zero
        = GoFloat.finite false 314 (-2) ∧
      GetFloat64Strict (envWith ("3.14")) ("VALUE") GoFloat.zero
        = (GoFloat.finite false 314 (-2), none)) ∧
    (GetInt (envWith ("-1")) ("VALUE") 321 = -1 ∧
      GetIntStrict (envWith ("-1")) ("VALUE") 321 = (-1, none)) ∧
    (GetInt64 (envWith ("123")) ("VALUE") 321 = 123 ∧
      GetInt64Strict (envWith ("123")) ("VALUE") 321 = (123, none)) ∧
    (GetUint (envWith ("123")) ("VALUE") 321 = 123 ∧
      GetUintStrict (envWith ("123")) ("VALUE") 321 = (123, none)) ∧
    (GetUint64 (envWith ("123")) ("VALUE") 321 = 123 ∧
      GetUint64Strict (envWith ("123")) ("VALUE") 321 = (123, none)) := by
  refine ⟨?_, ?_, ?_, ?_, ?_, ?_, ?_⟩
  · exact (claim_c4_success_forms_agree (envWith ("1")) ("VALUE") ("1")
      rfl).1 true false (by decide)
  · exact (claim_c4_success_forms_agree (envWith ("200ms")) ("VALUE")
      ("200ms") rfl).2.1 200000000 9 (by decide)
  · exact (claim_c4_success_forms_agree (envWith ("3.14")) ("VALUE")
      ("3.14") rfl).2.2.1 (GoFloat.finite false 314 (-2)) GoFloat.zero
      (by decide)
  · exact (claim_c4_success_forms_agree (envWith ("-1")) ("VALUE") ("-1")
      rfl).2.2.2.1 (-1) 321 (by decide)
  · exact (claim_c4_success_forms_agree (envWith ("123")) ("VALUE") ("123")
      rfl).2.2.2.2.1 123 321 (by decide)
  · exact (claim_c4_success_forms_agree (envWith ("123")) ("VALUE") ("123")
      rfl).2.2.2.2.2.1 123 321 (by decide)
  · exact (claim_c4_success_forms_agree (envWith ("123")) ("VALUE") ("123")
      rfl).2.2.2.2.2.2 123 321 (by decide)

/-- C3 (amended): a strict accessor on a present-but-unparsable value
returns the type's zero value (never the supplied default) together with
the parser's error; the error message always contains the offending text,
and for the strconv-backed accessors it also carries the reason category
rendering (`invalid syntax` vs `value out of range`, distinct strings).
Duration failures go through `time`-package messages, which contain the
offending text but no strconv category phrase. -/
theorem claim_c3_amended_strict_failure_shape (env : Env) (name s : String)
    (h : env name = some s) :
    (∀ e d, parseBool s = .error e →
      GetBoolStrict env name d = (false, some e) ∧
      containsStr e.message s ∧ containsStr e.message e.reason.msg) ∧
    (∀ e d, parseDuration s = .error e →
      GetDurationStrict env name d = (0, some e) ∧ containsStr e.message s) ∧
    (∀ e d, parseFloat s = .error e →
      GetFloat64Strict env name d = (GoFloat.zero, some e) ∧
      containsStr e.message s ∧ containsStr e.message e.reason.msg) ∧
    (∀ e d, parseInt s 0 = .error e →
      GetIntStrict env name d = (0, some e) ∧
      containsStr e.message s ∧ containsStr e.message e.reason.msg) ∧
    (∀ e d, parseInt s 64 = .error e →
      GetInt64Strict env name d = (0, some e) ∧
      containsStr e.message s ∧ containsStr e.message e.reason.msg) ∧
    (∀ e d, parseUint s 0 = .error e →
      GetUintStrict env name d = (0, some e) ∧
      containsStr e.message s ∧ containsStr e.message e.reason.msg) ∧
    (∀ e d, parseUint s 64 = .error e →
      GetUint64Strict env name d = (0, some e) ∧
      containsStr e.message s ∧ containsStr e.message e.reason.msg) ∧
    ErrReason.msg .invalidSyntax ≠ ErrReason.msg .outOfRange := by
  refine ⟨?_, ?_, ?_, ?_, ?_, ?_, ?_, by decide⟩
  · intro e d hp
    have he := parseBool_error_shape s e hp
    subst he
    exact ⟨by simp [GetBoolStrict, h, hp], numError_message_contains_num _,
      numError_message_contains_reason _⟩
  · intro e d hp
    obtain ⟨r, he⟩ := parseDuration_error_shape s e hp
    subst he
    exact ⟨by simp [GetDurationStrict, h, hp], durError_message_contains_orig _⟩
  · intro e d hp
    obtain ⟨r, he⟩ := parseFloat_error_shape s e hp
    subst he
    exact ⟨by simp [GetFloat64Strict, h, hp], numError_message_contains_num _,
      numError_message_contains_reason _⟩
  · intro e d hp
    obtain ⟨r, he⟩ := parseInt_error_shape s 0 e hp
    subst he
    exact ⟨by simp [GetIntStrict, h, hp], numError_message_contains_num _,
      numError_message_contains_reason _⟩
  · intro e d hp
    obtain ⟨r, he⟩ := parseInt_error_shape s 64 e hp
    subst he
    exact ⟨by simp [GetInt64Strict, h, hp], numError_message_contains_num _,
      numError_message_contains_reason _⟩
  · intro e d hp
    obtain ⟨r, he⟩ := parseUint_error_shape s 0 e hp
    subst he
    exact ⟨by simp [GetUintStrict, h, hp], numError_message_contains_num _,
      numError_message_contains_reason _⟩
  · intro e d hp
    obtain ⟨r, he⟩ := parseUint_error_shape s 64 e hp
    subst he
    exact ⟨by simp [GetUint64Strict, h, hp], numError_message_contains_num _,
      numError_message_contains_reason _⟩

/-- Witness for the amended C3 at the text `"bad"`. -/
theorem claim_c3_amended_strict_failure_shape_witness :
    GetBoolStrict (envWith ("bad")) ("VALUE") true
      = (false, some ⟨("ParseBool"), ("bad"), ErrReason.invalidSyntax⟩) ∧
    GetDurationStrict (envWith ("bad")) ("VALUE") 9
      = (0, some ⟨DurReason.invalid, ("bad")⟩) ∧
    containsStr
      (NumError.message ⟨("ParseBool"), ("bad"), ErrReason.invalidSyntax⟩)
      ("bad") := by
  obtain ⟨h1, h2, h3, h4, h5, h6, h7, h8⟩ :=
    claim_c3_amended_strict_failure_shape (envWith ("bad")) ("VALUE") ("bad")
      rfl
  obtain ⟨h1a, h1b, h1c⟩ :=
    h1 ⟨("ParseBool"), ("bad"), ErrReason.invalidSyntax⟩ true (by decide)
  obtain ⟨h2a, h2b⟩ := h2 ⟨DurReason.invalid, ("bad")⟩ 9 (by decide)
  exact ⟨h1a, h2a, h1b⟩

/-- C3 counterexample: `"10000000000h"` is a syntactically well-formed
duration (number plus unit) whose magnitude overflows int64 — a range
failure — yet the strict duration accessor's error message carries
neither of the claim's two reason-category phrases. -/
theorem claim_c3_counterexample :
    GetDurationStrict (envWith ("10000000000h")) ("VALUE") 7
      = (0, some ⟨DurReason.invalid, ("10000000000h")⟩) ∧
    ¬ containsStr
        (DurationError.message ⟨DurReason.invalid, ("10000000000h")⟩)
        ("invalid syntax") ∧
    ¬ containsStr
        (DurationError.message ⟨DurReason.invalid, ("10000000000h")⟩)
        ("out of range") := by
  refine ⟨by decide, ?_, ?_⟩ <;>
    (rw [containsStr_iff]; decide)

/-- C6 (amended): `strconv.ParseBool` accepts exactly the literal twelve
tokens `1 t T true TRUE True 0 f F false FALSE False`; any other present
text (mixed-case forms like `tRuE` included) makes `Bool` return the
default and `BoolStrict` return `(false, invalid-syntax error)`. -/
theorem claim_c6_amended_bool_token_set (env : Env) (name s : String)
    (h : env name = some s) :
    (s ∈ goTrueTokens → ∀ d, GetBool env name d = true ∧
      GetBoolStrict env name d = (true, none)) ∧
    (s ∈ goFalseTokens → ∀ d, GetBool env name d = false ∧
      GetBoolStrict env name d = (false, none)) ∧
    (s ∉ goTrueTokens → s ∉ goFalseTokens → ∀ d,
      GetBool env name d = d ∧
      GetBoolStrict env name d
        = (false, some ⟨("ParseBool"), s, ErrReason.invalidSyntax⟩)) := by
  refine ⟨?_, ?_, ?_⟩
  · intro hs d
    have hp : parseBool s = .ok true := by
      simp only [goTrueTokens, List.mem_cons, List.not_mem_nil, or_false] at hs
      unfold parseBool
      rw [if_pos hs]
    exact ⟨by simp [GetBool, h, hp], by simp [GetBoolStrict, h, hp]⟩
  · intro hs d
    have hnt : ¬(s = ("1") ∨ s = ("t") ∨ s = ("T") ∨ s = ("true") ∨
        s = ("TRUE") ∨ s = ("True")) := by
      simp only [goFalseTokens, List.mem_cons, List.not_mem_nil, or_false] at hs
      rcases hs with rfl | rfl | rfl | rfl | rfl | rfl <;> decide
    have hp : parseBool s = .ok false := by
      simp only [goFalseTokens, List.mem_cons, List.not_mem_nil, or_false] at hs
      unfold parseBool
      rw [if_neg hnt, if_pos hs]
    exact ⟨by simp [GetBool, h, hp], by simp [GetBoolStrict, h, hp]⟩
  · intro ht hf d
    have hnt : ¬(s = ("1") ∨ s = ("t") ∨ s = ("T") ∨ s = ("true") ∨
        s = ("TRUE") ∨ s = ("True")) := fun hs =>
      ht (by
        simp only [goTrueTokens, List.mem_cons, List.not_mem_nil, or_false]
        exact hs)
    have hnf : ¬(s = ("0") ∨ s = ("f") ∨ s = ("F") ∨ s = ("false") ∨
        s = ("FALSE") ∨ s = ("False")) := fun hs =>
      hf (by
        simp only [goFalseTokens, List.mem_cons, List.not_mem_nil, or_false]
        exact hs)
    have hp : parseBool s = .error ⟨("ParseBool"), s, .invalidSyntax⟩ := by
      unfold parseBool
      rw [if_neg hnt, if_neg hnf]
    exact ⟨by simp [GetBool, h, hp], by simp [GetBoolStrict, h, hp]⟩

/-- Witness for the amended C6: an exact token, a falsy token and a
rejected text. -/
theorem claim_c6_amended_bool_token_set_witness :
    (GetBool (envWith ("true")) ("VALUE") false = true ∧
      GetBoolStrict (envWith ("true")) ("VALUE") false = (true, none)) ∧
    (GetBool (envWith ("F")) ("VALUE") true = false ∧
      GetBoolStrict (envWith ("F")) ("VALUE") true = (false, none)) ∧
    (GetBool (envWith ("yes")) ("VALUE") true = true ∧
      GetBoolStrict (envWith ("yes")) ("VALUE") true
        = (false, some ⟨("ParseBool"), ("yes"), ErrReason.invalidSyntax⟩)) := by
  refine ⟨?_, ?_, ?_⟩
  · exact (claim_c6_amended_bool_token_set (envWith ("true")) ("VALUE")
      ("true") rfl).1 (by decide) false
  · exact (claim_c6_amended_bool_token_set (envWith ("F")) ("VALUE")
      ("F") rfl).2.1 (by decide) true
  · exact (claim_c6_amended_bool_token_set (envWith ("yes")) ("VALUE")
      ("yes") rfl).2.2 (by decide) (by decide) true

/-- C6 counterexample: `"tRuE"` is ASCII case-insensitively equal to the
token `true`, yet `Bool` falls back to the default (`false` here, where
the claim demands `true`) and `BoolStrict` reports an invalid-syntax
error instead of `(true, no error)`: `strconv.ParseBool` is not
case-insensitive beyond its twelve literal tokens. -/
theorem claim_c6_counterexample :
    caseInsensEq ("tRuE") ("true") = true ∧
    GetBool (envWith ("tRuE")) ("VALUE") false = false ∧
    GetBoolStrict (envWith ("tRuE")) ("VALUE") false
      = (false, some ⟨("ParseBool"), ("tRuE"), ErrReason.invalidSyntax⟩) :=
  ⟨by decide, by decide, by decide⟩

/-- C7: a present value with a leading `-` fails the unsigned parse
outright with an invalid-syntax error (never out-of-range): the ordinary
unsigned accessors return the default and the strict ones return zero
with the syntax error. -/
theorem claim_c7_unsigned_rejects_sign (env : Env) (name s : String)
    (rest : List Char) (h : env name = some s)
    (hminus : s.data = '-' :: rest) :
    (∀ d, GetUint env name d = d) ∧
    (∀ d, GetUintStrict env name d
        = (0, some ⟨("ParseUint"), s, ErrReason.invalidSyntax⟩)) ∧
    (∀ d, GetUint64 env name d = d) ∧
    (∀ d, GetUint64Strict env name d
        = (0, some ⟨("ParseUint"), s, ErrReason.invalidSyntax⟩)) := by
  have hcore : ∀ mv, parseUintCore s.data mv = .error .invalidSyntax := by
    intro mv
    unfold parseUintCore
    rw [hminus, if_neg (by simp), parseUintLoop,
      if_neg (by rw [show isDigit '-' = false from by decide]; simp)]
  have hp : ∀ b, parseUint s b
      = .error ⟨("ParseUint"), s, ErrReason.invalidSyntax⟩ := by
    intro b
    simp only [parseUint]
    rw [hcore]
  refine ⟨?_, ?_, ?_, ?_⟩ <;> intro d <;>
    simp [GetUint, GetUintStrict, GetUint64, GetUint64Strict, h, hp]

/-- Witness for C7 at `"-1"`, whose magnitude would fit any unsigned
width. -/
theorem claim_c7_unsigned_rejects_sign_witness :
    GetUint (envWith ("-1")) ("VALUE") 321 = 321 ∧
    GetUintStrict (envWith ("-1")) ("VALUE") 321
      = (0, some ⟨("ParseUint"), ("-1"), ErrReason.invalidSyntax⟩) ∧
    GetUint64 (envWith ("-1")) ("VALUE") 321 = 321 ∧
    GetUint64Strict (envWith ("-1")) ("VALUE") 321
      = (0, some ⟨("ParseUint"), ("-1"), ErrReason.invalidSyntax⟩) := by
  obtain ⟨h1, h2, h3, h4⟩ :=
    claim_c7_unsigned_rejects_sign (envWith ("-1")) ("VALUE") ("-1") ['1']
      rfl (by decide)
  exact ⟨h1 321, h2 321, h3 321, h4 321⟩

/-- C8: a present base-10 signed decimal text whose value exceeds the
`int64` range makes `Int` return the default and `IntStrict` return
`(0, out-of-range error)`, whose message carries `value out of range` —
distinguishable from the invalid-syntax errors that texts like `"3.1"`
or `"bad"` produce. -/
theorem claim_c8_int_out_of_range (env : Env) (name s : String)
    (h : env name = some s) (hshape : isSignedDecimal s = true)
    (hout : signedDecimalVal s < -(2 ^ 63) ∨
      (2 ^ 63 - 1 : Int) < signedDecimalVal s) :
    (∀ d, GetInt env name d = d) ∧
    (∀ d, GetIntStrict env name d
        = (0, some ⟨("ParseInt"), s, ErrReason.outOfRange⟩)) ∧
    containsStr (NumError.message ⟨("ParseInt"), s, ErrReason.outOfRange⟩)
      ("value out of range") ∧
    parseInt ("3.1") 0
      = .error ⟨("ParseInt"), ("3.1"), ErrReason.invalidSyntax⟩ ∧
    parseInt ("bad") 0
      = .error ⟨("ParseInt"), ("bad"), ErrReason.invalidSyntax⟩ ∧
    ErrReason.msg .outOfRange ≠ ErrReason.msg .invalidSyntax := by
  have hp := parseInt_out_of_range s hshape hout
  refine ⟨?_, ?_,
    numError_message_contains_reason ⟨("ParseInt"), s, ErrReason.outOfRange⟩,
    by decide, by decide, by decide⟩
  · intro d
    simp [GetInt, h, hp]
  · intro d
    simp [GetIntStrict, h, hp]

/-- Witness for C8 at the spec's literal example
`"12345678901234567890"`. -/
theorem claim_c8_int_out_of_range_witness :
    GetInt (envWith ("12345678901234567890")) ("VALUE") 321 = 321 ∧
    GetIntStrict (envWith ("12345678901234567890")) ("VALUE") 321
      = (0, some ⟨("ParseInt"), ("12345678901234567890"),
          ErrReason.outOfRange⟩) := by
  obtain ⟨h1, h2, h3, h4, h5, h6⟩ :=
    claim_c8_int_out_of_range (envWith ("12345678901234567890")) ("VALUE")
      ("12345678901234567890") rfl (by decide) (Or.inr (by decide))
  exact ⟨h1 321, h2 321⟩
